import Mathlib

/-! TAS fast-path interface: layout, constants and transmit buffer.

A shallow embedding of the declarations of `include/tas_fpif.h`,
`lib/tas/include/tas_ll.h` and `lib/tas/internal.h`: the C types of the
shared-memory structures with their `packed` / `aligned` attributes, the
`#define` constants and the enumerations, together with the layout rules of
the x86-64 GCC ABI the headers are compiled for.
-/

namespace TAS

/-! ## C object layout -/

/-- C object types as they occur in the headers.  A scalar is given by its
size in bytes (its natural alignment equals its size); `struct` and `union`
carry the `packed` attribute and, for a struct, the value of the `aligned`
attribute (`1` when the attribute is absent). -/
inductive CType where
  | scalar (size : Nat)
  | array (elem : CType) (count : Nat)
  | struct (packed : Bool) (aligned : Nat) (fields : List (String × CType))
  | union (packed : Bool) (members : List (String × CType))

/-- Round `x` up to the next multiple of `a`. -/
def roundUp (x a : Nat) : Nat := (x + a - 1) / a * a

mutual
/-- Alignment requirement of a type. -/
def CType.alignof : CType → Nat
  | .scalar n => n
  | .array e _ => e.alignof
  | .struct p a fs => max a (if p then 1 else alignofMax fs)
  | .union p ms => if p then 1 else alignofMax ms
/-- Largest alignment among the members of a field list. -/
def alignofMax : List (String × CType) → Nat
  | [] => 1
  | (_, t) :: r => max t.alignof (alignofMax r)
end

mutual
/-- Value of `sizeof` for a type. -/
def CType.sizeof : CType → Nat
  | .scalar n => n
  | .array e c => c * e.sizeof
  | .struct p a fs =>
      roundUp (structEnd p 0 fs) (max a (if p then 1 else alignofMax fs))
  | .union p ms =>
      roundUp (unionMax ms) (if p then 1 else alignofMax ms)
/-- Offset just past the last field when the fields are laid out in order
starting at offset `off`; in a packed struct no padding is inserted. -/
def structEnd (p : Bool) (off : Nat) : List (String × CType) → Nat
  | [] => off
  | (_, t) :: r =>
      structEnd p ((if p then off else roundUp off t.alignof) + t.sizeof) r
/-- Size of the largest member of a union. -/
def unionMax : List (String × CType) → Nat
  | [] => 0
  | (_, t) :: r => max t.sizeof (unionMax r)
end

/-- Value of `offsetof` for the field `name` in a field list laid out from
offset `off`. -/
def fieldOffset (p : Bool) (name : String) (off : Nat) :
    List (String × CType) → Option Nat
  | [] => none
  | (n, t) :: r =>
      let o := if p then off else roundUp off t.alignof
      if n = name then some o else fieldOffset p name (o + t.sizeof) r

/-- Value of `offsetof(T, name)` for a struct type `T`. -/
def CType.offsetof : CType → String → Option Nat
  | .struct p _ fs, name => fieldOffset p name 0 fs
  | _, _ => none

/-- Type of the member `name` of a struct or union. -/
def CType.member : CType → String → Option CType
  | .struct _ _ fs, name => (fs.find? (fun f => f.1 = name)).map Prod.snd
  | .union _ ms, name => (ms.find? (fun f => f.1 = name)).map Prod.snd
  | _, _ => none

/-- Sum of the sizes of the listed fields. -/
def fieldsSum : List (String × CType) → Nat
  | [] => 0
  | (_, t) :: r => t.sizeof + fieldsSum r

mutual
/-- The same type with every struct and union in it byte-packed. -/
def CType.pack : CType → CType
  | .scalar n => .scalar n
  | .array e c => .array e.pack c
  | .struct _ a fs => .struct true a (packFields fs)
  | .union _ ms => .union true (packFields ms)
/-- Byte-pack every field type of a field list. -/
def packFields : List (String × CType) → List (String × CType)
  | [] => []
  | (n, t) :: r => (n, t.pack) :: packFields r
end

def uint8_t : CType := .scalar 1
def uint16_t : CType := .scalar 2
def uint32_t : CType := .scalar 4
def uint64_t : CType := .scalar 8

/-! ## Ring-queue entries (`tas_fpif.h`) -/

/-- The member `msg` of `struct tas_fp_sprx`. -/
def tas_fp_sprx_msg : CType :=
  .union true
    [("packet", .struct false 1
        [("len", uint16_t), ("fn_core", uint16_t), ("flow_group", uint16_t)]),
     ("raw", .array uint8_t 55)]

/-- Kernel RX queue entry. -/
def tas_fp_sprx : CType :=
  .struct true 1
    [("addr", uint64_t), ("msg", tas_fp_sprx_msg), ("type", uint8_t)]

/-- The member `msg` of `struct tas_fp_sptx`. -/
def tas_fp_sptx_msg : CType :=
  .union true
    [("packet", .struct false 1 [("addr", uint64_t), ("len", uint16_t)]),
     ("connretran", .struct false 1 [("flow_id", uint32_t)]),
     ("raw", .array uint8_t 63)]

/-- Kernel TX queue entry. -/
def tas_fp_sptx : CType :=
  .struct true 1 [("msg", tas_fp_sptx_msg), ("type", uint8_t)]

/-- Update receive and transmit buffer of flow. -/
def tas_fp_arx_connupdate : CType :=
  .struct true 1
    [("opaque", uint64_t), ("rx_bump", uint32_t), ("rx_pos", uint32_t),
     ("tx_bump", uint32_t), ("flags", uint8_t)]

/-- The member `msg` of `struct tas_fp_arx`. -/
def tas_fp_arx_msg : CType :=
  .union true
    [("connupdate", tas_fp_arx_connupdate), ("raw", .array uint8_t 31)]

/-- Application RX queue entry. -/
def tas_fp_arx : CType :=
  .struct true 1 [("msg", tas_fp_arx_msg), ("type", uint8_t)]

/-- The member `msg` of `struct tas_fp_atx`. -/
def tas_fp_atx_msg : CType :=
  .union true
    [("connupdate", .struct true 1
        [("rx_bump", uint32_t), ("tx_bump", uint32_t), ("flow_id", uint32_t),
         ("bump_seq", uint16_t), ("flags", uint8_t)]),
     ("raw", .array uint8_t 15)]

/-- Application TX queue entry. -/
def tas_fp_atx : CType :=
  .struct true 1 [("msg", tas_fp_atx_msg), ("type", uint8_t)]

/-- The four ring-queue entry types. -/
def entryTypes : List CType := [tas_fp_sprx, tas_fp_sptx, tas_fp_arx, tas_fp_atx]

/-- Members of the payload union `msg` of a queue entry. -/
def msgMembers (T : CType) : List (String × CType) :=
  match T.member "msg" with
  | some (.union _ ms) => ms
  | _ => []

/-- Size of the raw payload area `msg.raw` of a queue entry. -/
def rawSize (T : CType) : Nat :=
  match ((msgMembers T).find? (fun f => f.1 = "raw")).map Prod.snd with
  | some t => t.sizeof
  | none => 0

/-- Index of the 64-byte cache line holding the byte at address `addr`. -/
def cacheLine (addr : Nat) : Nat := addr / 64

/-! ## Flow-state record (`tas_fpif.h`) -/

/-- Fields of `struct tas_fp_flowst` with `TAS_FP_OOO_RECV` defined, as in the
header.  The types `beui32_t`, `beui16_t` and `struct eth_addr` come from
`tas_packet_defs.h` and are parameters here. -/
def tas_fp_flowst_fields (beui32_t beui16_t eth_addr : CType) :
    List (String × CType) :=
  [("opaque", uint64_t), ("rx_base_sp", uint64_t), ("tx_base", uint64_t),
   ("rx_len", uint32_t), ("tx_len", uint32_t),
   ("local_ip", beui32_t), ("remote_ip", beui32_t),
   ("local_port", beui16_t), ("remote_port", beui16_t),
   ("remote_mac", eth_addr),
   ("db_id", uint16_t), ("flow_group", uint16_t), ("bump_seq", uint16_t),
   ("lock", uint32_t), ("rx_avail", uint32_t),
   ("rx_next_pos", uint32_t), ("rx_next_seq", uint32_t),
   ("rx_remote_avail", uint32_t), ("rx_dupack_cnt", uint32_t),
   ("rx_ooo_start", uint32_t), ("rx_ooo_len", uint32_t),
   ("tx_avail", uint32_t), ("tx_sent", uint32_t), ("tx_next_pos", uint32_t),
   ("tx_next_seq", uint32_t), ("tx_next_ts", uint32_t),
   ("tx_rate", uint32_t), ("cnt_tx_drops", uint16_t), ("cnt_rx_acks", uint16_t),
   ("cnt_rx_ack_bytes", uint32_t), ("cnt_rx_ecn_bytes", uint32_t),
   ("rtt_est", uint32_t)]

/-- Flow state registers: `packed, aligned(64)`. -/
def tas_fp_flowst (beui32_t beui16_t eth_addr : CType) : CType :=
  .struct true 64 (tas_fp_flowst_fields beui32_t beui16_t eth_addr)

/-- Address of the first byte of record `i` of an array of elements of type
`T` starting at address `base`. -/
def elemAddr (T : CType) (base i : Nat) : Nat := base + i * T.sizeof

/-! ## Sizes of the fast-path state (`tas_fpif.h`) -/

def TAS_FP_FLOWST_NUM : Nat := 128 * 1024
def TAS_FP_FLOWHT_ENTRIES : Nat := TAS_FP_FLOWST_NUM * 2
def TAS_FP_FLOWHT_NBSZ : Nat := 4

/-! ## Type tags of the ring queues (`tas_fpif.h`) -/

/-- The four ring queues. -/
inductive Queue where
  | sprx
  | sptx
  | arx
  | atx
  deriving DecidableEq

/-- Common stem of the macro names of a queue. -/
def Queue.stem : Queue → String
  | .sprx => "TAS_FP_SPRX_"
  | .sptx => "TAS_FP_SPTX_"
  | .arx => "TAS_FP_ARX_"
  | .atx => "TAS_FP_ATX_"

/-- Values of the `type` byte the header defines for each queue, with the
macro names. -/
def typeTags : Queue → List (String × Nat)
  | .sprx => [("TAS_FP_SPRX_INVALID", 0x0), ("TAS_FP_SPRX_PACKET", 0x1)]
  | .sptx => [("TAS_FP_SPTX_INVALID", 0x0), ("TAS_FP_SPTX_PACKET", 0x1),
              ("TAS_FP_SPTX_CONNRETRAN", 0x2), ("TAS_FP_SPTX_PACKET_NOTS", 0x3)]
  | .arx => [("TAS_FP_ARX_INVALID", 0x0), ("TAS_FP_ARX_CONNUPDATE", 0x1)]
  | .atx => [("TAS_FP_ATX_CONNUPDATE", 0x1)]

/-- Bit of the `flags` byte of an application RX connection update: not a
value of the `type` byte. -/
def TAS_FP_ARX_FLRXDONE : Nat := 0x1
/-- Bit of the `flags` byte of an application TX connection update: not a
value of the `type` byte. -/
def TAS_FP_ATX_FLTXDONE : Nat := 0x1

/-- Value of the "invalid" tag of a queue, when the header defines one. -/
def invalidTag (q : Queue) : Option Nat :=
  (typeTags q).lookup (q.stem ++ "INVALID")

/-- Tags of a queue other than its "invalid" tag. -/
def messageTags (q : Queue) : List (String × Nat) :=
  (typeTags q).filter (fun t => t.1 ≠ q.stem ++ "INVALID")

/-! ## Bump sequence numbers -/

/-- C conversion of an unsigned value to `uint16_t`. -/
def toUint16 (x : Nat) : Nat := x % 2 ^ 16

/-- The value carried in `tas_fp_atx.msg.connupdate.bump_seq` (a `uint16_t`)
for the value `x` of `tas_ll_connection.bump_seq` (a `uint32_t`). -/
def carried (x : Nat) : Nat := toUint16 x

/-! ## Connection states (`internal.h`) -/

inductive conn_state where
  | CONN_CLOSED
  | CONN_OPEN_REQUESTED
  | CONN_ACCEPT_REQUESTED
  | CONN_OPEN
  | CONN_CLOSE_REQUESTED
  deriving DecidableEq

/-- Enumerators in declaration order. -/
def conn_state.all : List conn_state :=
  [.CONN_CLOSED, .CONN_OPEN_REQUESTED, .CONN_ACCEPT_REQUESTED, .CONN_OPEN,
   .CONN_CLOSE_REQUESTED]

/-- Integer value of an enumerator: no enumerator has an initialiser, so the
first is `0` and each next one is one more than the one before it. -/
def conn_state.val : conn_state → Nat
  | .CONN_CLOSED => 0
  | .CONN_OPEN_REQUESTED => 1
  | .CONN_ACCEPT_REQUESTED => 2
  | .CONN_OPEN => 3
  | .CONN_CLOSE_REQUESTED => 4

/-- Name of the state in the connection state machine. -/
def conn_state.stateName : conn_state → String
  | .CONN_CLOSED => "Closed"
  | .CONN_OPEN_REQUESTED => "OpenRequested"
  | .CONN_ACCEPT_REQUESTED => "AcceptRequested"
  | .CONN_OPEN => "Open"
  | .CONN_CLOSE_REQUESTED => "CloseRequested"

/-- C conversion of an unsigned value to `uint8_t`, the type of
`tas_ll_connection.status` and of `tas_ll_event.event_type`. -/
def toUint8 (x : Nat) : Nat := x % 2 ^ 8

/-- The state a stored `status` byte stands for. -/
def conn_state.ofStatus (b : Nat) : Option conn_state :=
  conn_state.all.find? (fun s => s.val = b)

/-! ## Events (`tas_ll.h`) -/

inductive tas_ll_event_type where
  | TAS_LL_EV_LISTEN_OPEN
  | TAS_LL_EV_LISTEN_NEWCONN
  | TAS_LL_EV_LISTEN_ACCEPT
  | TAS_LL_EV_CONN_OPEN
  | TAS_LL_EV_CONN_CLOSED
  | TAS_LL_EV_CONN_RECEIVED
  | TAS_LL_EV_CONN_SENDBUF
  | TAS_LL_EV_CONN_RXCLOSED
  | TAS_LL_EV_CONN_TXCLOSED
  | TAS_LL_EV_CONN_MOVED
  deriving DecidableEq

/-- Enumerators in declaration order. -/
def tas_ll_event_type.all : List tas_ll_event_type :=
  [.TAS_LL_EV_LISTEN_OPEN, .TAS_LL_EV_LISTEN_NEWCONN, .TAS_LL_EV_LISTEN_ACCEPT,
   .TAS_LL_EV_CONN_OPEN, .TAS_LL_EV_CONN_CLOSED, .TAS_LL_EV_CONN_RECEIVED,
   .TAS_LL_EV_CONN_SENDBUF, .TAS_LL_EV_CONN_RXCLOSED, .TAS_LL_EV_CONN_TXCLOSED,
   .TAS_LL_EV_CONN_MOVED]

/-- Integer value of an enumerator (none has an initialiser). -/
def tas_ll_event_type.val : tas_ll_event_type → Nat
  | .TAS_LL_EV_LISTEN_OPEN => 0
  | .TAS_LL_EV_LISTEN_NEWCONN => 1
  | .TAS_LL_EV_LISTEN_ACCEPT => 2
  | .TAS_LL_EV_CONN_OPEN => 3
  | .TAS_LL_EV_CONN_CLOSED => 4
  | .TAS_LL_EV_CONN_RECEIVED => 5
  | .TAS_LL_EV_CONN_SENDBUF => 6
  | .TAS_LL_EV_CONN_RXCLOSED => 7
  | .TAS_LL_EV_CONN_TXCLOSED => 8
  | .TAS_LL_EV_CONN_MOVED => 9

/-- Member of the union `tas_ll_event.ev` that belongs to an event type (the
header marks each member `For #TAS_LL_EV_...`), as the list of its fields:
name and C type. -/
def tas_ll_event_type.payload : tas_ll_event_type → List (String × String)
  | .TAS_LL_EV_LISTEN_OPEN =>
      [("status", "int16_t"), ("listener", "struct tas_ll_listener *")]
  | .TAS_LL_EV_LISTEN_NEWCONN =>
      [("remote_port", "uint16_t"), ("remote_ip", "uint32_t"),
       ("listener", "struct tas_ll_listener *")]
  | .TAS_LL_EV_LISTEN_ACCEPT =>
      [("status", "int16_t"), ("conn", "struct tas_ll_connection *")]
  | .TAS_LL_EV_CONN_OPEN =>
      [("status", "int16_t"), ("conn", "struct tas_ll_connection *")]
  | .TAS_LL_EV_CONN_RECEIVED =>
      [("buf", "void *"), ("len", "size_t"),
       ("conn", "struct tas_ll_connection *")]
  | .TAS_LL_EV_CONN_SENDBUF => [("conn", "struct tas_ll_connection *")]
  | .TAS_LL_EV_CONN_RXCLOSED => [("conn", "struct tas_ll_connection *")]
  | .TAS_LL_EV_CONN_TXCLOSED => [("conn", "struct tas_ll_connection *")]
  | .TAS_LL_EV_CONN_MOVED =>
      [("status", "int16_t"), ("conn", "struct tas_ll_connection *")]
  | .TAS_LL_EV_CONN_CLOSED =>
      [("status", "int16_t"), ("conn", "struct tas_ll_connection *")]

/-- The event type a stored `event_type` byte stands for. -/
def tas_ll_event_type.ofByte (b : Nat) : Option tas_ll_event_type :=
  tas_ll_event_type.all.find? (fun e => e.val = b)

/-- The asynchronous operations of the API. -/
inductive AsyncOp where
  | tas_ll_listen_open
  | tas_ll_listen_accept
  | tas_ll_connection_open
  | tas_ll_connection_close
  | tas_ll_connection_move
  deriving DecidableEq

/-- Event type that reports the completion of an operation, after the
comments on the enumerators. -/
def AsyncOp.completion : AsyncOp → tas_ll_event_type
  | .tas_ll_listen_open => .TAS_LL_EV_LISTEN_OPEN
  | .tas_ll_listen_accept => .TAS_LL_EV_LISTEN_ACCEPT
  | .tas_ll_connection_open => .TAS_LL_EV_CONN_OPEN
  | .tas_ll_connection_close => .TAS_LL_EV_CONN_CLOSED
  | .tas_ll_connection_move => .TAS_LL_EV_CONN_MOVED

/-! ## Flow-state flags (`tas_fpif.h`) -/

def TAS_FP_FLOWST_SLOWPATH : Nat := 1
def TAS_FP_FLOWST_ECN : Nat := 8
def TAS_FP_FLOWST_TXFIN : Nat := 16
def TAS_FP_FLOWST_RXFIN : Nat := 32

/-- Bitwise complement of an `unsigned long long`. -/
def notULL (x : Nat) : Nat := 2 ^ 64 - 1 - x % 2 ^ 64

/-- The macro is `(~63ULL)`. -/
def TAS_FP_FLOWST_RX_MASK : Nat := notULL 63

/-- The flag bits kept in the low bits of `rx_base_sp`. -/
def flowstFlags : List Nat :=
  [TAS_FP_FLOWST_SLOWPATH, TAS_FP_FLOWST_ECN, TAS_FP_FLOWST_TXFIN,
   TAS_FP_FLOWST_RXFIN]

/-- Bitwise or of a set of flags. -/
def orFlags (S : List Nat) : Nat := S.foldr (fun x acc => x ||| acc) 0

/-! ## Transmit buffer of a connection (`tas_ll.h`) -/

/-- The transmit-buffer fields of `struct tas_ll_connection`. -/
structure tas_ll_connection where
  /-- Length of the transmit buffer. -/
  txb_len : Nat
  /-- Position of the next byte to be sent. -/
  txb_head : Nat
  /-- Number of sent but not yet acked bytes (behind head). -/
  txb_sent : Nat
  /-- Number of allocated but not yet sent bytes (after head). -/
  txb_allocated : Nat
  /-- Pending tx bump to fast path. -/
  txb_bump : Nat
  deriving DecidableEq

/-- Result codes of the synchronous buffer operations. -/
inductive LlError where
  | WouldBlock
  deriving DecidableEq

/-- The transmit-buffer invariant: `sent + allocated ≤ len` and the head is an
offset into the buffer. -/
def txb_inv (c : tas_ll_connection) : Prop :=
  c.txb_sent + c.txb_allocated ≤ c.txb_len ∧ c.txb_head < c.txb_len

instance (c : tas_ll_connection) : Decidable (txb_inv c) := by
  unfold txb_inv; infer_instance

/-- Bytes of the transmit buffer that are neither sent-but-unacked nor
allocated. -/
def txb_free (c : tas_ll_connection) : Nat :=
  c.txb_len - c.txb_sent - c.txb_allocated

/-- Offset at which the next allocation starts: right after the allocated
bytes, modulo the buffer length. -/
def txb_alloc_head (c : tas_ll_connection) : Nat :=
  (c.txb_head + c.txb_allocated) % c.txb_len

/-- Modelled from the spec: the state of a connection whose transmit buffer of
`len` bytes has just been set up (the code that opens a connection is not part
of the sources at hand): nothing sent, nothing allocated, head at offset 0. -/
def conn_fresh (len : Nat) : tas_ll_connection :=
  { txb_len := len, txb_head := 0, txb_sent := 0, txb_allocated := 0,
    txb_bump := 0 }

/-- Modelled from the spec: `tas_ll_connection_tx_alloc`, of which the header
has the declaration only.  Section 4.5: "attempting to allocate beyond
`len − allocated` fails with `WouldBlock`"; otherwise the bytes are reserved
right after the allocated ones and the call "may return fewer bytes than
requested when the region wraps past the buffer end".  Returns the number of
bytes reserved. -/
def tas_ll_connection_tx_alloc (conn : tas_ll_connection) (len : Nat) :
    Except LlError Nat × tas_ll_connection :=
  if conn.txb_len - conn.txb_allocated < len then (.error .WouldBlock, conn)
  else
    let n := min len (conn.txb_len - txb_alloc_head conn)
    (.ok n, { conn with txb_allocated := conn.txb_allocated + n })

/-- Modelled from the spec: `tas_ll_connection_tx_alloc2`, of which the header
has the declaration only.  Section 4.5: the "two-part variant returns both
contiguous spans when a single allocation straddles the wrap boundary", with
the same overflow policy as the one-part variant: the whole request is
reserved, the first span has `len_1` bytes up to the end of the buffer and the
second starts at offset 0.  Returns the number of bytes reserved and
`len_1`. -/
def tas_ll_connection_tx_alloc2 (conn : tas_ll_connection) (len : Nat) :
    Except LlError (Nat × Nat) × tas_ll_connection :=
  if conn.txb_len - conn.txb_allocated < len then (.error .WouldBlock, conn)
  else
    let len_1 := min len (conn.txb_len - txb_alloc_head conn)
    (.ok (len, len_1), { conn with txb_allocated := conn.txb_allocated + len })

/-- Modelled from the spec: `tas_ll_connection_tx_send`, of which the header
has the declaration only.  Section 4.5: "marks previously allocated bytes as
sent and schedules a bump (delta on `tx_bump`)": `len` bytes move from
`allocated` to `sent`, the head advances by `len` modulo the buffer length and
`len` is added to the pending bump.  The spec states no check of `len` against
the allocated bytes; the counters are natural numbers, so `allocated` stops at
zero. -/
def tas_ll_connection_tx_send (conn : tas_ll_connection) (len : Nat) :
    tas_ll_connection :=
  { conn with
    txb_allocated := conn.txb_allocated - len
    txb_sent := conn.txb_sent + len
    txb_bump := conn.txb_bump + len
    txb_head := (conn.txb_head + len) % conn.txb_len }

/-- A call of one of the transmit operations. -/
inductive TxCall where
  | tx_alloc (len : Nat)
  | tx_alloc2 (len : Nat)
  | tx_send (len : Nat)
  deriving DecidableEq

/-- State after one call. -/
def TxCall.apply (conn : tas_ll_connection) : TxCall → tas_ll_connection
  | .tx_alloc len => (tas_ll_connection_tx_alloc conn len).2
  | .tx_alloc2 len => (tas_ll_connection_tx_alloc2 conn len).2
  | .tx_send len => tas_ll_connection_tx_send conn len

/-- State after a sequence of calls. -/
def runCalls (conn : tas_ll_connection) (calls : List TxCall) :
    tas_ll_connection :=
  calls.foldl TxCall.apply conn

/-! ## Flow lookup table entries (`tas_fpif.h`) -/

/-- The macro is `(1 << 31)`, taken as a value of the 32-bit `flow_id`
word. -/
def TAS_FP_FLOWHTE_VALID : Nat := (1 <<< 31) % 2 ^ 32
def TAS_FP_FLOWHTE_POSSHIFT : Nat := 29

/-- Flow lookup table entry. -/
def tas_fp_flowhte : CType :=
  .struct true 1 [("flow_id", uint32_t), ("flow_hash", uint32_t)]

/-! ## Layout of the internal pipeline memory (`tas_fpif.h`) -/

def TAS_FP_APPST_NUM : Nat := 8
def TAS_FP_APPST_CTX_NUM : Nat := 31
def TAS_FP_APPST_CTX_MCS : Nat := 16
def TAS_FP_APPCTX_NUM : Nat := 16
def TAS_FP_MAX_FLOWGROUPS : Nat := 4096

/-- The type `int`: four bytes on the x86-64 ABI. -/
def c_int : CType := .scalar 4

/-- Application state. -/
def tas_fp_appst : CType :=
  .struct true 1
    [("ctx_num", uint16_t), ("ctx_ids", .array uint16_t TAS_FP_APPST_CTX_NUM)]

/-- Application context registers. -/
def tas_fp_appctx : CType :=
  .struct true 1
    [("rx_base", uint64_t), ("tx_base", uint64_t), ("rx_len", uint32_t),
     ("tx_len", uint32_t), ("appst_id", uint32_t), ("evfd", c_int),
     ("rx_head", uint32_t), ("tx_head", uint32_t), ("last_ts", uint32_t),
     ("rx_avail", uint32_t)]

/-- Layout of internal pipeline memory: `struct tas_fp_state`, packed. -/
def tas_fp_state (beui32_t beui16_t eth_addr : CType) : CType :=
  .struct true 1
    [("appctx",
        .array (.array tas_fp_appctx TAS_FP_APPCTX_NUM) TAS_FP_APPST_CTX_MCS),
     ("flowst",
        .array (tas_fp_flowst beui32_t beui16_t eth_addr) TAS_FP_FLOWST_NUM),
     ("flowht", .array tas_fp_flowhte TAS_FP_FLOWHT_ENTRIES),
     ("kctx", .array tas_fp_appctx TAS_FP_APPST_CTX_MCS),
     ("appst", .array tas_fp_appst TAS_FP_APPST_NUM),
     ("flow_group_steering", .array uint8_t TAS_FP_MAX_FLOWGROUPS)]

end TAS

namespace TAS

/-! ## Layout lemmas -/

theorem structEnd_packed (off : Nat) (fs : List (String × CType)) :
    structEnd true off fs = off + fieldsSum fs := by
  induction fs generalizing off with
  | nil => simp [structEnd, fieldsSum]
  | cons f r ih =>
    obtain ⟨n, t⟩ := f
    simp [structEnd, fieldsSum, ih, Nat.add_assoc]

theorem flowst_layout_sizeof (T32 T16 TE : CType)
    (h32 : T32.sizeof = 4) (h16 : T16.sizeof = 2) (hE : TE.sizeof = 6) :
    (tas_fp_flowst T32 T16 TE).sizeof = 128 := by
  have hsum : fieldsSum (tas_fp_flowst_fields T32 T16 TE) = 128 := by
    simp [tas_fp_flowst_fields, fieldsSum, h32, h16, hE, uint64_t, uint32_t,
      uint16_t, CType.sizeof]
  simp [tas_fp_flowst, CType.sizeof, structEnd_packed, hsum, roundUp]

/-! ## Ring-queue entry sizes -/

/-- C1: the four ring-queue entries have sizes 64, 64, 32 and 16 bytes, both
with the attributes written in the header (the four `STATIC_ASSERT`s hold) and
when every struct and union in them is byte-packed. -/
theorem ring_entry_sizes :
    (tas_fp_sprx.sizeof = 64 ∧ tas_fp_sptx.sizeof = 64 ∧
      tas_fp_arx.sizeof = 32 ∧ tas_fp_atx.sizeof = 16) ∧
    (tas_fp_sprx.pack.sizeof = 64 ∧ tas_fp_sptx.pack.sizeof = 64 ∧
      tas_fp_arx.pack.sizeof = 32 ∧ tas_fp_atx.pack.sizeof = 16) := by
  decide

/-! ## Flow-state record -/

/-- C2: with `beui32_t`, `beui16_t` and `struct eth_addr` of 4, 2 and 6 bytes
the fields of `struct tas_fp_flowst` sum to 128 bytes, `sizeof` is 128 (no tail
padding), the fields before `lock` fill bytes 0..55 and `lock` is at offset 56;
two distinct records of a 64-byte-aligned array share no 64-byte cache line. -/
theorem flowst_layout (T32 T16 TE : CType)
    (h32 : T32.sizeof = 4) (h16 : T16.sizeof = 2) (hE : TE.sizeof = 6) :
    fieldsSum (tas_fp_flowst_fields T32 T16 TE) = 128 ∧
    (tas_fp_flowst T32 T16 TE).sizeof = 128 ∧
    (tas_fp_flowst T32 T16 TE).alignof = 64 ∧
    128 % 64 = 0 ∧
    (tas_fp_flowst T32 T16 TE).offsetof "opaque" = some 0 ∧
    fieldsSum ((tas_fp_flowst_fields T32 T16 TE).takeWhile
      (fun f => f.1 ≠ "lock")) = 56 ∧
    (tas_fp_flowst T32 T16 TE).offsetof "lock" = some 56 ∧
    (∀ base i j k₁ k₂ : Nat, base % 64 = 0 → i ≠ j →
      k₁ < (tas_fp_flowst T32 T16 TE).sizeof →
      k₂ < (tas_fp_flowst T32 T16 TE).sizeof →
      cacheLine (elemAddr (tas_fp_flowst T32 T16 TE) base i + k₁) ≠
        cacheLine (elemAddr (tas_fp_flowst T32 T16 TE) base j + k₂)) := by
  have hsum : fieldsSum (tas_fp_flowst_fields T32 T16 TE) = 128 := by
    simp [tas_fp_flowst_fields, fieldsSum, h32, h16, hE, uint64_t, uint32_t,
      uint16_t, CType.sizeof]
  have hsize : (tas_fp_flowst T32 T16 TE).sizeof = 128 := by
    simp [tas_fp_flowst, CType.sizeof, structEnd_packed, hsum, roundUp]
  refine ⟨hsum, hsize, ?_, by norm_num, ?_, ?_, ?_, ?_⟩
  · simp [tas_fp_flowst, CType.alignof]
  · simp [tas_fp_flowst, CType.offsetof, tas_fp_flowst_fields, fieldOffset]
  · simp [tas_fp_flowst_fields, List.takeWhile, fieldsSum, h32, h16, hE,
      uint64_t, uint32_t, uint16_t, CType.sizeof]
  · simp [tas_fp_flowst, CType.offsetof, tas_fp_flowst_fields, fieldOffset,
      h32, h16, hE, uint64_t, uint32_t, uint16_t, CType.sizeof]
  · intro base i j k₁ k₂ hb hij hk₁ hk₂
    rw [hsize] at hk₁ hk₂
    simp only [cacheLine, elemAddr, hsize]
    omega

/-- Witness for C2 at wrappers of the stated sizes. -/
theorem flowst_layout_witness :
    (CType.scalar 4).sizeof = 4 ∧ (CType.scalar 2).sizeof = 2 ∧
    (CType.array uint8_t 6).sizeof = 6 ∧
    (tas_fp_flowst (.scalar 4) (.scalar 2) (.array uint8_t 6)).sizeof = 128 ∧
    (tas_fp_flowst (.scalar 4) (.scalar 2) (.array uint8_t 6)).offsetof "lock"
      = some 56 ∧
    cacheLine (elemAddr (tas_fp_flowst (.scalar 4) (.scalar 2)
        (.array uint8_t 6)) 4096 3 + 127) ≠
      cacheLine (elemAddr (tas_fp_flowst (.scalar 4) (.scalar 2)
        (.array uint8_t 6)) 4096 4 + 0) :=
  have h := flowst_layout (.scalar 4) (.scalar 2) (.array uint8_t 6)
    (by decide) (by decide) (by decide)
  ⟨by decide, by decide, by decide, h.2.1, h.2.2.2.2.2.2.1,
    h.2.2.2.2.2.2.2 4096 3 4 127 0 (by decide) (by decide) (by decide)
      (by decide)⟩

/-! ## Position of the type tag -/

/-- C3: in each of the four queue entries `type` is the last byte (offsets 63,
63, 31, 15), the payload union starts where the raw area starts and ends right
before the tag, every variant of the union is no larger than the raw area, and
in a 64-byte-aligned slot array every byte of a slot, the tag included, is in
the cache line of the slot's first byte. -/
theorem tag_last_byte :
    entryTypes.map (fun T => T.offsetof "type") = [some 63, some 63, some 31, some 15] ∧
    ∀ T ∈ entryTypes,
      T.offsetof "type" = some (T.sizeof - 1) ∧
      (∃ o, T.offsetof "msg" = some o ∧ T.offsetof "type" = some (o + rawSize T)) ∧
      (∀ m ∈ msgMembers T, m.2.sizeof ≤ rawSize T) ∧
      (∀ m ∈ msgMembers T, m.2.pack.sizeof ≤ rawSize T) ∧
      (∀ base n k : Nat, base % 64 = 0 → k < T.sizeof →
        cacheLine (elemAddr T base n + k) = cacheLine (elemAddr T base n)) := by
  refine ⟨by decide, ?_⟩
  intro T hT
  simp only [entryTypes, List.mem_cons, List.mem_singleton, List.not_mem_nil,
    or_false] at hT
  have hs : T.sizeof = 64 ∨ T.sizeof = 32 ∨ T.sizeof = 16 := by
    rcases hT with h | h | h | h <;> subst h <;> decide
  refine ⟨?_, ?_, ?_, ?_, ?_⟩
  · rcases hT with h | h | h | h <;> subst h <;> decide
  · rcases hT with h | h | h | h <;> subst h
    · exact ⟨8, by decide, by decide⟩
    · exact ⟨0, by decide, by decide⟩
    · exact ⟨0, by decide, by decide⟩
    · exact ⟨0, by decide, by decide⟩
  · rcases hT with h | h | h | h <;> subst h <;> decide
  · rcases hT with h | h | h | h <;> subst h <;> decide
  · intro base n k hb hk
    simp only [cacheLine, elemAddr]
    rcases hs with h | h | h <;> rw [h] at hk ⊢ <;> omega

/-- Witness for C3 at the application RX entry. -/
theorem tag_last_byte_witness :
    tas_fp_arx.offsetof "type" = some 31 ∧
    cacheLine (elemAddr tas_fp_arx 128 3 + 31) = cacheLine (elemAddr tas_fp_arx 128 3) :=
  ⟨((tag_last_byte).2 tas_fp_arx (by simp [entryTypes])).1,
    ((tag_last_byte).2 tas_fp_arx (by simp [entryTypes])).2.2.2.2 128 3 31
      (by decide) (by decide)⟩

/-! ## Table sizes -/

/-- C4: the flow-state pool has 131072 slots, the lookup table has twice as
many entries (262144), which is 65536 buckets of 4 entries with none left
over, and every entry of the bucket of any hash lies inside the table. -/
theorem flow_table_sizes :
    TAS_FP_FLOWST_NUM = 131072 ∧
    TAS_FP_FLOWHT_ENTRIES = 2 * TAS_FP_FLOWST_NUM ∧
    TAS_FP_FLOWHT_ENTRIES = 262144 ∧
    TAS_FP_FLOWHT_NBSZ = 4 ∧
    TAS_FP_FLOWHT_ENTRIES % TAS_FP_FLOWHT_NBSZ = 0 ∧
    TAS_FP_FLOWHT_ENTRIES / TAS_FP_FLOWHT_NBSZ = 65536 ∧
    65536 * TAS_FP_FLOWHT_NBSZ = TAS_FP_FLOWHT_ENTRIES ∧
    ∀ h k : Nat, k < TAS_FP_FLOWHT_NBSZ →
      (h % (TAS_FP_FLOWHT_ENTRIES / TAS_FP_FLOWHT_NBSZ)) * TAS_FP_FLOWHT_NBSZ + k
        < TAS_FP_FLOWHT_ENTRIES := by
  refine ⟨by decide, by decide, by decide, rfl, by decide, by decide,
    by decide, ?_⟩
  intro h k hk
  simp only [TAS_FP_FLOWHT_ENTRIES, TAS_FP_FLOWST_NUM, TAS_FP_FLOWHT_NBSZ] at hk ⊢
  omega

/-- Witness for C4 at the hash `0xffffffff` and the last entry of its
bucket. -/
theorem flow_table_sizes_witness :
    (0xffffffff % (TAS_FP_FLOWHT_ENTRIES / TAS_FP_FLOWHT_NBSZ)) * TAS_FP_FLOWHT_NBSZ + 3
      < TAS_FP_FLOWHT_ENTRIES :=
  (flow_table_sizes).2.2.2.2.2.2.2 0xffffffff 3 (by decide)

/-! ## Type tags -/

/-- C5 as stated fails: the application TX queue defines no "invalid" tag. -/
theorem atx_no_invalid_tag :
    invalidTag Queue.atx = none ∧
    ¬ (∀ q : Queue, invalidTag q = some 0) := by
  refine ⟨by decide, ?_⟩
  intro h
  exact absurd (h Queue.atx) (by decide)

/-- C5, amended: the kernel RX, kernel TX and application RX queues define an
"invalid" tag and its value is 0; the application TX queue defines none and
its only tag is `TAS_FP_ATX_CONNUPDATE` = 1.  In all four queues every tag
other than the invalid one is non-zero and the tags of a queue have pairwise
distinct values. -/
theorem type_tags_distinct :
    (∀ q : Queue, q ≠ Queue.atx → invalidTag q = some 0) ∧
    typeTags Queue.atx = [("TAS_FP_ATX_CONNUPDATE", 1)] ∧
    (∀ q : Queue, ∀ t ∈ messageTags q, t.2 ≠ 0) ∧
    (∀ q : Queue, ((typeTags q).map Prod.snd).Nodup) ∧
    (∀ q : Queue, ∀ t ∈ typeTags q, t.2 = 0 → invalidTag q = some 0) := by
  refine ⟨?_, by decide, ?_, ?_, ?_⟩
  · intro q hq
    cases q <;> first | decide | exact absurd rfl hq
  · intro q
    cases q <;> decide
  · intro q
    cases q <;> decide
  · intro q
    cases q <;> decide

/-- Witness for C5 at the kernel TX queue. -/
theorem type_tags_distinct_witness :
    invalidTag Queue.sptx = some 0 ∧
    (("TAS_FP_SPTX_CONNRETRAN", 2) : String × Nat).2 ≠ 0 :=
  ⟨(type_tags_distinct).1 Queue.sptx (by decide),
    (type_tags_distinct).2.2.1 Queue.sptx ("TAS_FP_SPTX_CONNRETRAN", 2)
      (by decide)⟩

/-! ## Transmit-buffer invariant -/

theorem tx_alloc_frame (c : tas_ll_connection) (len : Nat)
    (h : c.txb_allocated ≤ c.txb_len) :
    ∃ n, n ≤ len ∧ c.txb_allocated + n ≤ c.txb_len ∧
      (tas_ll_connection_tx_alloc c len).2 =
        { c with txb_allocated := c.txb_allocated + n } := by
  unfold tas_ll_connection_tx_alloc
  split
  · exact ⟨0, Nat.zero_le _, h, rfl⟩
  · exact ⟨min len (c.txb_len - txb_alloc_head c), by omega, by omega, rfl⟩

theorem tx_alloc2_frame (c : tas_ll_connection) (len : Nat)
    (h : c.txb_allocated ≤ c.txb_len) :
    ∃ n, n ≤ len ∧ c.txb_allocated + n ≤ c.txb_len ∧
      (tas_ll_connection_tx_alloc2 c len).2 =
        { c with txb_allocated := c.txb_allocated + n } := by
  unfold tas_ll_connection_tx_alloc2
  split
  · exact ⟨0, Nat.zero_le _, h, rfl⟩
  · exact ⟨len, Nat.le_refl _, by omega, rfl⟩

theorem txb_inv_tx_alloc (c : tas_ll_connection) (len : Nat) (h : txb_inv c)
    (hfit : len ≤ txb_free c) :
    txb_inv (tas_ll_connection_tx_alloc c len).2 := by
  unfold tas_ll_connection_tx_alloc
  split
  · exact h
  · obtain ⟨h₁, h₂⟩ := h
    simp only [txb_inv, txb_free] at hfit ⊢
    omega

theorem txb_inv_tx_alloc2 (c : tas_ll_connection) (len : Nat) (h : txb_inv c)
    (hfit : len ≤ txb_free c) :
    txb_inv (tas_ll_connection_tx_alloc2 c len).2 := by
  unfold tas_ll_connection_tx_alloc2
  split
  · exact h
  · obtain ⟨h₁, h₂⟩ := h
    simp only [txb_inv, txb_free] at hfit ⊢
    omega

theorem txb_inv_tx_send (c : tas_ll_connection) (len : Nat) (h : txb_inv c)
    (hlen : len ≤ c.txb_allocated) :
    txb_inv (tas_ll_connection_tx_send c len) ∧
    (tas_ll_connection_tx_send c len).txb_sent +
      (tas_ll_connection_tx_send c len).txb_allocated =
      c.txb_sent + c.txb_allocated := by
  obtain ⟨h₁, h₂⟩ := h
  have hm : (c.txb_head + len) % c.txb_len < c.txb_len :=
    Nat.mod_lt _ (by omega)
  simp only [tas_ll_connection_tx_send, txb_inv]
  omega

theorem tx_alloc_result (c : tas_ll_connection) (len n : Nat)
    (h : (tas_ll_connection_tx_alloc c len).1 = .ok n) :
    n = min len (c.txb_len - txb_alloc_head c) ∧ n ≤ len ∧
    (tas_ll_connection_tx_alloc c len).2 =
      { c with txb_allocated := c.txb_allocated + n } := by
  unfold tas_ll_connection_tx_alloc at h ⊢
  split at h
  · simp at h
  · rename_i hc
    simp only [Except.ok.injEq] at h
    rw [if_neg hc]
    subst h
    exact ⟨rfl, by omega, rfl⟩

theorem tx_alloc_short_iff (c : tas_ll_connection) (len n : Nat)
    (hlen : 0 < c.txb_len)
    (h : (tas_ll_connection_tx_alloc c len).1 = .ok n) :
    n < len ↔ c.txb_len < txb_alloc_head c + len := by
  have hn := (tx_alloc_result c len n h).1
  have hah : txb_alloc_head c < c.txb_len := Nat.mod_lt _ hlen
  omega

/-- C7 as stated fails: 65535 < 65536 are both values of the connection's
32-bit `bump_seq`, but the carried 16-bit values are 65535 and 0. -/
theorem carried_wraps :
    (65535 : Nat) < 65536 ∧ 65536 < 2 ^ 32 ∧
    carried 65535 = 65535 ∧ carried 65536 = 0 ∧
    ¬ (carried 65535 < carried 65536) := by
  decide

/-- C7, amended: the carried value is the connection's `bump_seq` modulo
2^16; for `a < b` with no multiple of 2^16 in `(a, b]` (the same quotient by
2^16) the carried values satisfy `carried a < carried b`. -/
theorem carried_monotone_between_wraps (a b : Nat) (hab : a < b)
    (hw : a / 2 ^ 16 = b / 2 ^ 16) :
    carried a = a % 2 ^ 16 ∧ carried b = b % 2 ^ 16 ∧
    carried a < carried b := by
  refine ⟨rfl, rfl, ?_⟩
  simp only [carried, toUint16]
  norm_num at hw ⊢
  omega

/-- Witness for C7, amended, at 65536 and 131071. -/
theorem carried_monotone_between_wraps_witness :
    carried 65536 < carried 131071 :=
  (carried_monotone_between_wraps 65536 131071 (by decide) (by decide)).2.2

/-! ## Connection states -/

/-- C8: `enum conn_state` has exactly five enumerators, they are the states
Closed, OpenRequested, AcceptRequested, Open and CloseRequested of the state
machine, their values 0..4 are pairwise distinct, `CONN_CLOSED` is 0 (a zeroed
`status` byte reads as Closed) and every value is unchanged by the conversion
to the 8-bit `status` field. -/
theorem conn_state_values :
    conn_state.all.length = 5 ∧
    (∀ s : conn_state, s ∈ conn_state.all) ∧
    conn_state.all.map conn_state.stateName =
      ["Closed", "OpenRequested", "AcceptRequested", "Open", "CloseRequested"] ∧
    conn_state.all.map conn_state.val = [0, 1, 2, 3, 4] ∧
    (conn_state.all.map conn_state.val).Nodup ∧
    conn_state.CONN_CLOSED.val = 0 ∧
    conn_state.ofStatus 0 = some conn_state.CONN_CLOSED ∧
    (∀ s : conn_state, s.val < 2 ^ 8 ∧ toUint8 s.val = s.val ∧
      conn_state.ofStatus (toUint8 s.val) = some s) := by
  refine ⟨rfl, ?_, by decide, by decide, by decide, rfl, by decide, ?_⟩
  · intro s
    cases s <;> decide
  · intro s
    cases s <;> decide

/-! ## Completion events -/

/-- C9: each of the five asynchronous operations has its own completion event
type (LISTEN_OPEN, LISTEN_ACCEPT, CONN_OPEN, CONN_CLOSED, CONN_MOVED) and the
payload of that event has an `int16_t status` field; the ten event types have
the pairwise distinct values 0..9, which the `uint8_t event_type` field holds
unchanged, so the stored byte determines the event type. -/
theorem completion_events :
    (∀ op : AsyncOp, ("status", "int16_t") ∈ op.completion.payload) ∧
    [AsyncOp.tas_ll_listen_open, AsyncOp.tas_ll_listen_accept,
      AsyncOp.tas_ll_connection_open, AsyncOp.tas_ll_connection_close,
      AsyncOp.tas_ll_connection_move].map AsyncOp.completion =
      [tas_ll_event_type.TAS_LL_EV_LISTEN_OPEN,
       tas_ll_event_type.TAS_LL_EV_LISTEN_ACCEPT,
       tas_ll_event_type.TAS_LL_EV_CONN_OPEN,
       tas_ll_event_type.TAS_LL_EV_CONN_CLOSED,
       tas_ll_event_type.TAS_LL_EV_CONN_MOVED] ∧
    tas_ll_event_type.all.length = 10 ∧
    (∀ e : tas_ll_event_type, e ∈ tas_ll_event_type.all) ∧
    tas_ll_event_type.all.map tas_ll_event_type.val = List.range 10 ∧
    (tas_ll_event_type.all.map tas_ll_event_type.val).Nodup ∧
    (∀ e : tas_ll_event_type, toUint8 e.val = e.val ∧
      tas_ll_event_type.ofByte (toUint8 e.val) = some e) := by
  refine ⟨?_, by decide, rfl, ?_, by decide, by decide, ?_⟩
  · intro op
    cases op <;> decide
  · intro e
    cases e <;> decide
  · intro e
    cases e <;> decide

/-! ## Flow-state flags -/

theorem or_and_mask (b f : Nat) (hb : b < 2 ^ 64) (h64 : b % 64 = 0)
    (hf : f < 64) :
    (b ||| f) &&& (2 ^ 64 - 1 - 63) = b ∧ (b ||| f) &&& 63 = f := by
  obtain ⟨k, rfl⟩ : ∃ k, b = 2 ^ 6 * k := ⟨b / 64, by omega⟩
  have hk : k < 2 ^ 58 := by omega
  have hf6 : f < 2 ^ 6 := by omega
  have hM : (2 ^ 64 - 1 - 63 : Nat) = 2 ^ 6 * (2 ^ 58 - 1) := by norm_num
  have hfbit : ∀ i, 6 ≤ i → f.testBit i = false := fun i hi =>
    Nat.testBit_eq_false_of_lt
      (lt_of_lt_of_le hf6 (Nat.pow_le_pow_right (by norm_num) hi))
  have hkbit : ∀ i, 58 ≤ i → k.testBit i = false := fun i hi =>
    Nat.testBit_eq_false_of_lt
      (lt_of_lt_of_le hk (Nat.pow_le_pow_right (by norm_num) hi))
  constructor
  · rw [hM]
    apply Nat.eq_of_testBit_eq
    intro i
    simp only [Nat.testBit_and, Nat.testBit_or, Nat.testBit_mul_pow_two,
      Nat.testBit_two_pow_sub_one]
    by_cases hi : 6 ≤ i
    · by_cases hi2 : i - 6 < 58
      · simp [hi, hi2, hfbit i hi]
      · simp [hi, hi2, hfbit i hi, hkbit (i - 6) (by omega)]
    · simp [hi]
  · have h63 : (63 : Nat) = 2 ^ 6 - 1 := by norm_num
    rw [h63, Nat.and_pow_two_sub_one_eq_mod, ← Nat.mul_add_lt_is_or hf6,
      Nat.mul_add_mod]
    exact Nat.mod_eq_of_lt hf6

theorem orFlags_lt (S : List Nat) (hS : ∀ x ∈ S, x ∈ flowstFlags) :
    orFlags S < 2 ^ 6 := by
  induction S with
  | nil => simp [orFlags]
  | cons x r ih =>
    have hx : x < 2 ^ 6 := by
      have hmem := hS x (List.mem_cons_self x r)
      simp only [flowstFlags, TAS_FP_FLOWST_SLOWPATH, TAS_FP_FLOWST_ECN,
        TAS_FP_FLOWST_TXFIN, TAS_FP_FLOWST_RXFIN, List.mem_cons,
        List.mem_singleton, List.not_mem_nil, or_false] at hmem
      omega
    have hr := ih (fun y hy => hS y (List.mem_cons_of_mem x hy))
    simp only [orFlags, List.foldr_cons] at hr ⊢
    exact Nat.or_lt_two_pow hx hr

/-- C10: the flags SLOWPATH (1), ECN (8), TXFIN (16) and RXFIN (32) are
pairwise disjoint and each is cleared by `TAS_FP_FLOWST_RX_MASK`; for every
64-bit base address `b` that is a multiple of 64 and every set `S` of these
flags, masking `b | flags` with `TAS_FP_FLOWST_RX_MASK` gives back `b` and
masking it with 63 gives back the flags. -/
theorem flowst_flags_recovered :
    flowstFlags = [1, 8, 16, 32] ∧
    TAS_FP_FLOWST_RX_MASK = 2 ^ 64 - 64 ∧
    flowstFlags.Pairwise (fun x y => x &&& y = 0) ∧
    (∀ x ∈ flowstFlags, x &&& TAS_FP_FLOWST_RX_MASK = 0 ∧ x &&& 63 = x) ∧
    (∀ (b : Nat) (S : List Nat), b < 2 ^ 64 → b % 64 = 0 →
      (∀ x ∈ S, x ∈ flowstFlags) →
      (b ||| orFlags S) &&& TAS_FP_FLOWST_RX_MASK = b ∧
      (b ||| orFlags S) &&& 63 = orFlags S) := by
  refine ⟨rfl, by decide, by decide, by decide, ?_⟩
  intro b S hb h64 hS
  have hf : orFlags S < 64 := orFlags_lt S hS
  have hmask : TAS_FP_FLOWST_RX_MASK = 2 ^ 64 - 1 - 63 := by decide
  rw [hmask]
  exact or_and_mask b (orFlags S) hb h64 hf

/-- Witness for C10 at the base address `0x7f0000001000` with the flags ECN and
RXFIN set. -/
theorem flowst_flags_recovered_witness :
    (0x7f0000001000 ||| orFlags [TAS_FP_FLOWST_ECN, TAS_FP_FLOWST_RXFIN])
        &&& TAS_FP_FLOWST_RX_MASK = 0x7f0000001000 ∧
    (0x7f0000001000 ||| orFlags [TAS_FP_FLOWST_ECN, TAS_FP_FLOWST_RXFIN])
        &&& 63 = orFlags [TAS_FP_FLOWST_ECN, TAS_FP_FLOWST_RXFIN] :=
  (flowst_flags_recovered).2.2.2.2 0x7f0000001000
    [TAS_FP_FLOWST_ECN, TAS_FP_FLOWST_RXFIN] (by decide) (by decide)
    (by decide)

/-! ## Flow lookup table entries -/

theorem and_two_pow_eq_zero (s i : Nat) (hs : s < 2 ^ i) : s &&& 2 ^ i = 0 := by
  apply Nat.eq_of_testBit_eq
  intro j
  simp only [Nat.testBit_and, Nat.testBit_two_pow, Nat.zero_testBit]
  by_cases hj : i = j
  · subst hj
    simp [Nat.testBit_eq_false_of_lt hs]
  · simp [hj]

theorem word_split (q s : Nat) (hs : s < 2 ^ 29) :
    (2 ^ 29 * q ||| s) &&& (2 ^ 29 - 1) = s ∧ (2 ^ 29 * q ||| s) >>> 29 = q := by
  rw [← Nat.mul_add_lt_is_or hs, Nat.and_pow_two_sub_one_eq_mod,
    Nat.shiftRight_eq_div_pow, Nat.mul_add_mod, Nat.mod_eq_of_lt hs]
  refine ⟨rfl, ?_⟩
  rw [Nat.mul_add_div (Nat.two_pow_pos 29), Nat.div_eq_of_lt hs, Nat.add_zero]

theorem word_valid (q s : Nat) (hs : s < 2 ^ 29) (hq : q.testBit 2 = true) :
    (2 ^ 29 * q ||| s) &&& 2 ^ 31 ≠ 0 := by
  intro h
  have h1 : ((2 ^ 29 * q ||| s) &&& 2 ^ 31).testBit 31 = true := by
    rw [← Nat.mul_add_lt_is_or hs, Nat.testBit_and,
      Nat.testBit_mul_pow_two_add q hs, Nat.testBit_two_pow_self]
    simpa using hq
  rw [h, Nat.zero_testBit] at h1
  exact Bool.noConfusion h1

/-- C11: in the 32-bit `flow_id` word of a lookup table entry the valid bit
(2^31), the position field at bits 29-30 (2^2 = `TAS_FP_FLOWHT_NBSZ` values)
and the flow slot index (below `TAS_FP_FLOWST_NUM` ≤ 2^29) do not overlap: for
every slot index `s < TAS_FP_FLOWST_NUM` and position `p < 4` the word
`VALID | (p << 29) | s` fits 32 bits, its low 29 bits are `s`, bits 29-30 are
`p` and its valid bit is set, while the word `s` alone has the valid bit
clear. -/
theorem flowhte_word_fields :
    TAS_FP_FLOWHTE_VALID = 2 ^ 31 ∧
    TAS_FP_FLOWHTE_POSSHIFT = 29 ∧
    2 ^ (31 - TAS_FP_FLOWHTE_POSSHIFT) = TAS_FP_FLOWHT_NBSZ ∧
    TAS_FP_FLOWST_NUM ≤ 2 ^ TAS_FP_FLOWHTE_POSSHIFT ∧
    (∀ s p : Nat, s < TAS_FP_FLOWST_NUM → p < TAS_FP_FLOWHT_NBSZ →
      (TAS_FP_FLOWHTE_VALID ||| (p <<< TAS_FP_FLOWHTE_POSSHIFT) ||| s) < 2 ^ 32 ∧
      (TAS_FP_FLOWHTE_VALID ||| (p <<< TAS_FP_FLOWHTE_POSSHIFT) ||| s)
        &&& (2 ^ 29 - 1) = s ∧
      ((TAS_FP_FLOWHTE_VALID ||| (p <<< TAS_FP_FLOWHTE_POSSHIFT) ||| s)
        >>> TAS_FP_FLOWHTE_POSSHIFT) &&& 3 = p ∧
      (TAS_FP_FLOWHTE_VALID ||| (p <<< TAS_FP_FLOWHTE_POSSHIFT) ||| s)
        &&& TAS_FP_FLOWHTE_VALID ≠ 0 ∧
      s &&& TAS_FP_FLOWHTE_VALID = 0) := by
  refine ⟨by decide, rfl, by decide, by decide, ?_⟩
  intro s p hs hp
  have hs29 : s < 2 ^ 29 := lt_of_lt_of_le hs (by decide)
  have hs31 : s < 2 ^ 31 := lt_of_lt_of_le hs (by decide)
  have hv : TAS_FP_FLOWHTE_VALID = 2 ^ 31 := by decide
  have hhi : TAS_FP_FLOWHTE_VALID ||| (p <<< TAS_FP_FLOWHTE_POSSHIFT)
      = 2 ^ 29 * (4 + p) ∧ (4 + p) &&& 3 = p ∧ (4 + p).testBit 2 = true := by
    have hp4 : p < 4 := hp
    interval_cases p <;> decide
  obtain ⟨hw, hpos, hbit⟩ := hhi
  simp only [TAS_FP_FLOWHTE_POSSHIFT] at hw ⊢
  rw [hw]
  have hsplit := word_split (4 + p) s hs29
  refine ⟨?_, hsplit.1, ?_, ?_, ?_⟩
  · rw [← Nat.mul_add_lt_is_or hs29]
    have hp4 : p < 4 := hp
    norm_num at hs29 ⊢
    omega
  · rw [hsplit.2]
    exact hpos
  · rw [hv]
    exact word_valid (4 + p) s hs29 hbit
  · rw [hv]
    exact and_two_pow_eq_zero s 31 hs31

/-- Witness for C11 at the last slot index and the last position. -/
theorem flowhte_word_fields_witness :
    (TAS_FP_FLOWHTE_VALID ||| (3 <<< TAS_FP_FLOWHTE_POSSHIFT) ||| 131071)
      &&& (2 ^ 29 - 1) = 131071 ∧
    ((TAS_FP_FLOWHTE_VALID ||| (3 <<< TAS_FP_FLOWHTE_POSSHIFT) ||| 131071)
      >>> TAS_FP_FLOWHTE_POSSHIFT) &&& 3 = 3 ∧
    131071 &&& TAS_FP_FLOWHTE_VALID = 0 :=
  have h := (flowhte_word_fields).2.2.2.2 131071 3 (by decide) (by decide)
  ⟨h.2.1, h.2.2.1, h.2.2.2.2⟩

/-! ## Internal pipeline memory -/

/-- C12: in the packed `struct tas_fp_state` the `appctx` array that precedes
the flow-state array takes 16 * 16 * 48 = 12288 bytes (with a 4-byte `int`), a
multiple of 64, so `flowst` starts at offset 12288 and for every
`i < TAS_FP_FLOWST_NUM` record `i` lies at offset `12288 + 128 * i`, a multiple
of 64: in a 64-byte-aligned mapping of the state every flow-state record is
64-byte aligned although the enclosing struct is packed. -/
theorem flowst_array_aligned (T32 T16 TE : CType)
    (h32 : T32.sizeof = 4) (h16 : T16.sizeof = 2) (hE : TE.sizeof = 6) :
    tas_fp_appctx.sizeof = 48 ∧
    TAS_FP_APPST_CTX_MCS * TAS_FP_APPCTX_NUM * tas_fp_appctx.sizeof = 12288 ∧
    12288 % 64 = 0 ∧
    (tas_fp_state T32 T16 TE).alignof = 1 ∧
    (tas_fp_flowst T32 T16 TE).alignof = 64 ∧
    (tas_fp_state T32 T16 TE).offsetof "appctx" = some 0 ∧
    (tas_fp_state T32 T16 TE).offsetof "flowst" = some 12288 ∧
    (∀ i : Nat, i < TAS_FP_FLOWST_NUM →
      elemAddr (tas_fp_flowst T32 T16 TE) 12288 i = 12288 + 128 * i ∧
      elemAddr (tas_fp_flowst T32 T16 TE) 12288 i % 64 = 0 ∧
      (∀ base : Nat, base % 64 = 0 →
        (base + elemAddr (tas_fp_flowst T32 T16 TE) 12288 i) % 64 = 0)) := by
  have hsize : (tas_fp_flowst T32 T16 TE).sizeof = 128 :=
    (flowst_layout_sizeof T32 T16 TE h32 h16 hE)
  refine ⟨by decide, by decide, by decide, ?_, ?_, ?_, ?_, ?_⟩
  · simp [tas_fp_state, CType.alignof]
  · simp [tas_fp_flowst, CType.alignof]
  · simp [tas_fp_state, CType.offsetof, fieldOffset]
  · have h48 : (CType.array (.array tas_fp_appctx TAS_FP_APPCTX_NUM)
        TAS_FP_APPST_CTX_MCS).sizeof = 12288 := by decide
    simp only [tas_fp_state, CType.offsetof, fieldOffset, if_true, h48]
    simp
  · intro i _
    simp only [elemAddr, hsize]
    refine ⟨by omega, by omega, ?_⟩
    intro base hb
    omega

/-- Witness for C12 at the last record of the array. -/
theorem flowst_array_aligned_witness :
    (tas_fp_state (.scalar 4) (.scalar 2) (.array uint8_t 6)).offsetof "flowst"
      = some 12288 ∧
    elemAddr (tas_fp_flowst (.scalar 4) (.scalar 2) (.array uint8_t 6)) 12288
      131071 % 64 = 0 :=
  have h := flowst_array_aligned (.scalar 4) (.scalar 2) (.array uint8_t 6)
    (by decide) (by decide) (by decide)
  ⟨h.2.2.2.2.2.2.1, (h.2.2.2.2.2.2.2 131071 (by decide)).2.1⟩

end TAS
